import Mathlib

/-!
Verification of the Kanri for VS Code persistence and messaging core.

This file gives a shallow embedding of the storage, board-manager and
webview-router logic of the repository and proves or refutes the stated
properties.  Machine dates (`Date`) are modelled by their millisecond value;
JSON serialization turns a date into the ISO-8601 string denoting the same
millisecond value, so a serialized date is modelled by the constructor `iso`
carrying that value.
-/

set_option autoImplicit false

/-- A JavaScript date-like runtime value: either a native `Date` holding a
millisecond timestamp, or the ISO-8601 string produced for it by
`Date.prototype.toISOString` (which keeps exactly millisecond precision, and
which `new Date(isoString)` parses back to the same millisecond value). -/
inductive TimeVal
  | date (ms : Nat)
  | iso (ms : Nat)
deriving DecidableEq, Repr

/-- `new Date(x)` applied to a date-like value: copies a native `Date`,
parses an ISO string back to the same millisecond value. -/
def reviveTime : TimeVal → TimeVal
  | .date ms => .date ms
  | .iso ms => .date ms

/-- JSON serialization of a date-like value: a native `Date` becomes its ISO
string; a string stays a string. -/
def jsonTime : TimeVal → TimeVal
  | .date ms => .iso ms
  | .iso ms => .iso ms

/-- A date-like value held as a native `Date` (fresh in-memory data). -/
def TimeVal.isNative : TimeVal → Prop
  | .date _ => True
  | .iso _ => False

/-- `String.prototype.trim` on the underlying character list: drop whitespace
from both ends. -/
def trimChars (l : List Char) : List Char :=
  ((l.dropWhile Char.isWhitespace).reverse.dropWhile Char.isWhitespace).reverse

/-- `String.prototype.trim`, modelled over the string's characters. -/
def strTrim (s : String) : String := ⟨trimChars s.data⟩

namespace AList

variable {κ : Type} {α : Type} [DecidableEq κ]

/-- First value stored under key `k` (JS `Map.get` / object property read). -/
def alGet (s : List (κ × α)) (k : κ) : Option α :=
  match s with
  | [] => none
  | (k2, v) :: rest => if k2 = k then some v else alGet rest k

/-- Store `v` under `k`: replace in place when the key exists (keeping its
position, as JS objects and `Map` do), otherwise append at the end. -/
def alSet (s : List (κ × α)) (k : κ) (v : α) : List (κ × α) :=
  match s with
  | [] => [(k, v)]
  | (k2, v2) :: rest => if k2 = k then (k, v) :: rest else (k2, v2) :: alSet rest k v

/-- Remove the entry of key `k` (JS `Map.delete` / `update(key, undefined)`). -/
def alErase (s : List (κ × α)) (k : κ) : List (κ × α) :=
  match s with
  | [] => []
  | (k2, v2) :: rest => if k2 = k then rest else (k2, v2) :: alErase rest k

end AList

namespace Cards

open AList

/-- Card priority levels (`cardStorage.ts`, `KanbanCard['priority']`). -/
inductive Priority
  | low | medium | high | urgent
deriving DecidableEq, Repr

/-- `KanbanCard` of `cardStorage.ts`: id, title, optional description,
columnId, createdAt, updatedAt, integer order, optional tags and priority. -/
structure KanbanCard where
  id : String
  title : String
  description : Option String
  columnId : String
  createdAt : TimeVal
  updatedAt : TimeVal
  order : Int
  tags : Option (List String)
  priority : Option Priority
deriving DecidableEq, Repr

/-- The shape of a `workspaceState` key used by `CardStorage`: an active card
is stored at `kanri.cards.<cardId>`, a soft-deleted card at
`kanri.cards.deleted.<cardId>`, and the column index at `kanri.cards.index`.
Generated card ids contain no dot, so the three key families are disjoint and
the string filters of the source (`startsWith`/`includes`) distinguish exactly
these shapes. -/
inductive CardKey
  | card (id : String)
  | deleted (id : String)
  | colIndex
deriving DecidableEq, Repr

/-- The record written for a soft-deleted card: the stored card spread
together with a `deletedAt` timestamp. -/
structure DeletedCard where
  card : KanbanCard
  deletedAt : TimeVal
deriving DecidableEq, Repr

/-- A value held in the `workspaceState` Memento under a `CardStorage` key. -/
inductive StoreVal
  | card (c : KanbanCard)
  | deletedCard (d : DeletedCard)
  | colIndex (m : List (String × List String))
deriving DecidableEq, Repr

/-- The Memento, as the persisted (JSON) view: a key/value list in key
insertion order (JS object property order; `Memento.keys()` enumerates it). -/
abbrev Memento := List (CardKey × StoreVal)

/-- JSON serialization of a card as stored by `Memento.update`: `Date` fields
become their ISO strings, everything else is unchanged. -/
def serializeCard (c : KanbanCard) : KanbanCard :=
  { c with createdAt := jsonTime c.createdAt, updatedAt := jsonTime c.updatedAt }

/-- Date revival done by `getCard`/`getAllCards`:
`{...cardData, createdAt: new Date(...), updatedAt: new Date(...)}`. -/
def reviveCard (c : KanbanCard) : KanbanCard :=
  { c with createdAt := reviveTime c.createdAt, updatedAt := reviveTime c.updatedAt }

/-- The card carried by a store entry whose key has the active-card shape
`kanri.cards.<id>`, if any. -/
def entryCard : CardKey × StoreVal → Option KanbanCard
  | (.card _, .card c) => some c
  | _ => none

/-- The active cards of the store in storage-key order: the values found under
keys of shape `kanri.cards.<id>` (the filter of `updateCardIndex`, which skips
the index key and the deleted namespace). -/
def activeCards (s : Memento) : List KanbanCard :=
  s.filterMap entryCard

/-- Append `id` to the bucket of `col`, creating the bucket at the end when
absent — the loop body of `updateCardIndex`
(`if (!columnIndex[card.columnId]) ... ; columnIndex[card.columnId].push(card.id)`). -/
def indexInsert (m : List (String × List String)) (col id : String) :
    List (String × List String) :=
  match m with
  | [] => [(col, [id])]
  | (c, ids) :: rest =>
      if c = col then (c, ids ++ [id]) :: rest else (c, ids) :: indexInsert rest col id

/-- The column index computed by `updateCardIndex`: fold the active cards in
storage-key order into buckets keyed by `columnId`. -/
def computeIndex (s : Memento) : List (String × List String) :=
  (activeCards s).foldl (fun m c => indexInsert m c.columnId c.id) []

/-- `CardStorage.updateCardIndex`: recompute the column index from storage and
write it at `kanri.cards.index`. -/
def updateCardIndex (s : Memento) : Memento :=
  alSet s .colIndex (.colIndex (computeIndex s))

/-- `CardStorage.getCard`: read the stored card and revive its `Date` fields;
`none` models the `Card not found` failure result. -/
def getCard (s : Memento) (cardId : String) : Option KanbanCard :=
  match alGet s (.card cardId) with
  | some (.card c) => some (reviveCard c)
  | _ => none

/-- The bucket lookup `columnIndex[columnId] || []` of `getCardsByColumn`. -/
def bucketOf (m : List (String × List String)) (col : String) : List String :=
  (alGet m col).getD []

/-- The stored column index `storage.get(indexKey, {})` of `getCardsByColumn`. -/
def storedIndex (s : Memento) : List (String × List String) :=
  match alGet s .colIndex with
  | some (.colIndex m) => m
  | _ => []

/-- The comparator `(a, b) => a.order - b.order` of `getCardsByColumn` as the
total preorder it sorts by. -/
def byOrder (a b : KanbanCard) : Prop := a.order ≤ b.order

instance : DecidableRel byOrder := fun a b => inferInstanceAs (Decidable (a.order ≤ b.order))

instance : IsTotal KanbanCard byOrder := ⟨fun a b => Int.le_total a.order b.order⟩

instance : IsTrans KanbanCard byOrder := ⟨fun _ _ _ hab hbc => le_trans hab hbc⟩

/-- `CardStorage.getCardsByColumn`: look the column's card ids up in the
stored index, fetch each card (dropping lookup failures), and sort by `order`.
`Array.prototype.sort` is stable and is modelled by the (unique) stable sort
for the comparator, Mathlib's insertion sort. -/
def getCardsByColumn (s : Memento) (col : String) : List KanbanCard :=
  List.insertionSort byOrder ((bucketOf (storedIndex s) col).filterMap (getCard s))

/-- `CardStorage.saveCard` (private): store the card at `kanri.cards.<id>`
(the Memento serializes it); the read-back verification always sees the value
just written, so the operation succeeds. -/
def saveCard (s : Memento) (c : KanbanCard) : Memento :=
  alSet s (.card c.id) (.card (serializeCard c))

/-- The card-creation phase of `CardStorage.createCard` (after input
validation has accepted and sanitized the inputs): the generated id and clock
reading are environment inputs and appear as parameters.  Computes
`order := max order in target column + 1` via
`reduce((max, card) => Math.max(max, card.order), 0) || 0`, saves the new
card, and rebuilds the index. -/
def createCard (s : Memento) (cardId : String) (now : Nat) (title : String)
    (description : Option String) (columnId : String) (tags : List String)
    (priority : Option Priority) : Memento × KanbanCard :=
  let columnCards := getCardsByColumn s columnId
  let maxOrder : Int := columnCards.foldl (fun m c => max m c.order) 0
  let newCard : KanbanCard :=
    { id := cardId, title := title, description := description, columnId := columnId,
      createdAt := .date now, updatedAt := .date now, order := maxOrder + 1,
      tags := some tags, priority := priority }
  (updateCardIndex (saveCard s newCard), newCard)

/-- The updates object passed to `CardStorage.updateCard`.  Its static type
omits `id` and `createdAt`, but an untyped caller can still include them, so
they are modelled too; the code reassigns both after the spread. -/
structure CardUpdates where
  id : Option String := none
  title : Option String := none
  description : Option (Option String) := none
  columnId : Option String := none
  createdAt : Option TimeVal := none
  updatedAt : Option TimeVal := none
  order : Option Int := none
  tags : Option (Option (List String)) := none
  priority : Option (Option Priority) := none
deriving DecidableEq, Repr

/-- The merge of `updateCard`:
`{...current, ...updates, id: current.id, createdAt: current.createdAt, updatedAt: new Date()}`. -/
def applyUpdates (cur : KanbanCard) (u : CardUpdates) (now : Nat) : KanbanCard :=
  { id := cur.id,
    title := u.title.getD cur.title,
    description := u.description.getD cur.description,
    columnId := u.columnId.getD cur.columnId,
    createdAt := cur.createdAt,
    updatedAt := .date now,
    order := u.order.getD cur.order,
    tags := u.tags.getD cur.tags,
    priority := u.priority.getD cur.priority }

/-- The rebuild condition of `updateCard`:
`updates.columnId && updates.columnId !== current.columnId` (an empty string
is falsy in JS, so it does not trigger the rebuild). -/
def columnChanged (u : CardUpdates) (cur : KanbanCard) : Bool :=
  match u.columnId with
  | some c => c ≠ "" && c ≠ cur.columnId
  | none => false

/-- `CardStorage.updateCard`: fetch the card, merge the updates preserving
`id` and `createdAt`, stamp `updatedAt`, save, and rebuild the index exactly
when the column changed.  `.error` carries the failure message of the code. -/
def updateCard (s : Memento) (cardId : String) (u : CardUpdates) (now : Nat) :
    Memento × Except String KanbanCard :=
  match getCard s cardId with
  | none => (s, .error ("Cannot update non-existent card: " ++ cardId))
  | some cur =>
    let updated := applyUpdates cur u now
    let s1 := saveCard s updated
    let s2 := if columnChanged u cur then updateCardIndex s1 else s1
    (s2, .ok updated)

/-- `CardStorage.deleteCard`: verify the card exists in the active namespace,
copy it (with `deletedAt`) into the deleted namespace, remove the active key,
and rebuild the index; a missing card yields the failure result untouched. -/
def deleteCard (s : Memento) (cardId : String) (now : Nat) :
    Memento × Except String Bool :=
  match alGet s (.card cardId) with
  | some (.card existing) =>
    let s1 := alSet s (.deleted cardId) (.deletedCard ⟨existing, .date now⟩)
    let s2 := alErase s1 (.card cardId)
    let s3 := updateCardIndex s2
    (s3, .ok true)
  | _ => (s, .error ("Cannot delete non-existent card: " ++ cardId))

/-- A card mutation as issued through the public `CardStorage` API: create
(with the environment-chosen id and clock), update (a move is an update whose
`columnId` changes), or soft delete. -/
inductive CardOp
  | create (cardId : String) (now : Nat) (title : String) (description : Option String)
      (columnId : String) (tags : List String) (priority : Option Priority)
  | update (cardId : String) (u : CardUpdates) (now : Nat)
  | delete (cardId : String) (now : Nat)

/-- Run one operation, keeping the storage state. -/
def applyOp (s : Memento) (op : CardOp) : Memento :=
  match op with
  | .create cardId now title description columnId tags priority =>
      (createCard s cardId now title description columnId tags priority).1
  | .update cardId u now => (updateCard s cardId u now).1
  | .delete cardId now => (deleteCard s cardId now).1

/-- Run a sequence of operations. -/
def applyOps (s : Memento) (ops : List CardOp) : Memento :=
  ops.foldl applyOp s

/-- The storage of a freshly constructed `CardStorage` over an empty Memento:
the constructor runs `initializeStorageIndices`, which writes an empty index. -/
def initMemento : Memento := updateCardIndex []

/-- An operation is well formed when an `update` does not try to set
`columnId` to the empty string (the sanitizer of the real call sites rejects
empty column ids, and `updateCard` itself would skip the index rebuild for
the falsy empty string). -/
def CardOp.WF : CardOp → Prop
  | .update _ u _ => u.columnId ≠ some ""
  | _ => True

/-- The ordering claimed by the spec: by integer `order`, ties broken by card
id (lexicographic on the id's characters).  This definition follows the
spec's words, not the source, and is only used to compare the source behavior
against the claim. -/
def byOrderThenId (a b : KanbanCard) : Prop :=
  a.order < b.order ∨ (a.order = b.order ∧ (a.id.data < b.id.data ∨ a.id = b.id))

instance : DecidableRel byOrderThenId := fun a b =>
  inferInstanceAs
    (Decidable (a.order < b.order ∨ (a.order = b.order ∧ (a.id.data < b.id.data ∨ a.id = b.id))))

/-- The column read claimed by the spec (again from the spec's words): the
non-soft-deleted cards of the column sorted by `order` with ties broken by
card id. -/
def getCardsByColumnSpec (s : Memento) (col : String) : List KanbanCard :=
  List.insertionSort byOrderThenId
    (((activeCards s).filter (fun c => c.columnId == col)).map reviveCard)

/-- Storage keys are pairwise distinct, as in any JS key/value store. -/
def NodupKeys (s : Memento) : Prop := (s.map Prod.fst).Nodup

/-- Every entry under an active-card key holds a card whose `id` field equals
the id in the key — `saveCard` stores each card under its own id. -/
def CardIdsOK (s : Memento) : Prop :=
  ∀ id v, (CardKey.card id, v) ∈ s → ∃ c, v = StoreVal.card c ∧ c.id = id

/-- Structural invariant of the card store: unique keys, card entries keyed by
their own id, and the stored column index is the one `updateCardIndex`
computes from the current storage. -/
structure StoreWF (s : Memento) : Prop where
  nodupKeys : NodupKeys s
  cardIds : CardIdsOK s
  indexOK : AList.alGet s .colIndex = some (.colIndex (computeIndex s))

/-- The operation sequence of the tie-break counterexample: a card `cardZ` is
created in `col1` (order 1), a card `cardA` in `col2` (also order 1), and
`cardA` is then moved into `col1`, producing two cards of equal order there. -/
def exOps : List CardOp :=
  [ .create "cardZ" 1 "first task" none "col1" [] none,
    .create "cardA" 2 "second task" none "col2" [] none,
    .update "cardA" { columnId := some "col1" } 3 ]

/-- The store reached by the counterexample operations. -/
def exState : Memento := applyOps initMemento exOps

/-- Store of the update-frame witness: one freshly created card `c1`. -/
def exC10Store : Memento :=
  applyOps initMemento [.create "c1" 1 "task" none "todo" [] none]

/-- The card stored in `exC10Store` (as `getCard` returns it). -/
def exC10Card : KanbanCard :=
  { id := "c1", title := "task", description := none, columnId := "todo",
    createdAt := .date 1, updatedAt := .date 1, order := 1,
    tags := some [], priority := none }

/-- An updates object that renames the card and also tries to overwrite the
immutable `id` and `createdAt` fields. -/
def exC10Updates : CardUpdates :=
  { id := some "evil", title := some "renamed", createdAt := some (.date 99) }

/-- A concrete card with native `Date` timestamps for the round-trip witness. -/
def exC8Card : KanbanCard :=
  { id := "c8", title := "round trip", description := some "body",
    columnId := "done", createdAt := .date 1, updatedAt := .date 2,
    order := 3, tags := some ["x"], priority := some .high }

end Cards

namespace Boards

open AList

/-- Card priority of `config/defaults.ts` (`CardPriority`). -/
inductive CardPriority
  | low | medium | high | urgent
deriving DecidableEq, Repr

/-- `KanbanCard` of `config/defaults.ts`: the card shape nested in a board
file. -/
structure KanbanCard where
  id : String
  title : String
  description : Option String
  priority : CardPriority
  tags : List String
  assignee : Option String
  dueDate : Option TimeVal
  createdAt : TimeVal
  lastModified : TimeVal
  color : Option String
  estimatedEffort : Option Int
  actualEffort : Option Int
deriving DecidableEq, Repr

/-- `KanbanColumn` of `config/defaults.ts`. -/
structure KanbanColumn where
  id : String
  title : String
  cards : List KanbanCard
  maxCards : Option Nat
  color : Option String
deriving DecidableEq, Repr

/-- `KanbanBoard` of `config/defaults.ts`. -/
structure KanbanBoard where
  id : String
  name : String
  description : Option String
  columns : List KanbanColumn
  createdAt : TimeVal
  lastModified : TimeVal
  filePath : String
deriving DecidableEq, Repr

/-- JSON serialization of a nested card: every `Date` becomes its ISO string. -/
def serializeCard (c : KanbanCard) : KanbanCard :=
  { c with dueDate := c.dueDate.map jsonTime,
           createdAt := jsonTime c.createdAt,
           lastModified := jsonTime c.lastModified }

/-- JSON serialization of a column. -/
def serializeColumn (col : KanbanColumn) : KanbanColumn :=
  { col with cards := col.cards.map serializeCard }

/-- JSON serialization of a board, as `JSON.stringify` produces it: every
`Date` anywhere in the object tree becomes its ISO string. -/
def serializeBoard (b : KanbanBoard) : KanbanBoard :=
  { b with columns := b.columns.map serializeColumn,
           createdAt := jsonTime b.createdAt,
           lastModified := jsonTime b.lastModified }

/-- The object `FileStorage.saveBoard` writes to the primary `.kanri.json`
file: the serialized board spread together with save metadata. -/
structure BoardFileData where
  board : KanbanBoard
  lastSaved : TimeVal
  version : String
  savedBy : String
  extensionVersion : String
deriving DecidableEq, Repr

/-- Build the file contents written by `FileStorage.saveBoard` for a board at
clock reading `now`. -/
def mkBoardFileData (b : KanbanBoard) (now : Nat) (extVersion : String) : BoardFileData :=
  { board := serializeBoard b,
    lastSaved := .iso now,
    version := "1.0.0",
    savedBy := "Kanri for VS Code",
    extensionVersion := extVersion }

/-- `FileStorage.isValidBoard`: dynamic type checks (`id`/`name` strings,
`columns` an array of objects with string `id`/`title` and array `cards`).
Every check holds by construction in this typed embedding. -/
def isValidBoard (_ : KanbanBoard) : Bool := true

/-- `FileStorage.loadBoard` applied to a parsed board file: validate, then
revive only the top-level `createdAt` and `lastModified` with `new Date(...)`;
nested column/card fields are returned exactly as parsed (their date strings
are not revived). -/
def loadBoardData (d : BoardFileData) : Option KanbanBoard :=
  if isValidBoard d.board then
    some { d.board with createdAt := reviveTime d.board.createdAt,
                        lastModified := reviveTime d.board.lastModified }
  else none

/-- A write performed through the storage adapter by `FileStorage.saveBoard`:
either the primary user-visible board file or the backup copy in extension
storage. -/
inductive WriteEvent
  | primary (d : BoardFileData)
  | backup (d : BoardFileData)
deriving DecidableEq, Repr

/-- Environment of one `FileStorage.saveBoard` call: directory availability
and injected adapter write failures (`some msg` = `fs.writeFile` throws with
that message). -/
structure FsEnv where
  workspaceAvailable : Bool
  extensionStorageAvailable : Bool
  primaryWriteError : Option String
  backupWriteError : Option String
deriving DecidableEq, Repr

/-- Result of `FileStorage.saveBoard`: the `{success, error?}` object together
with the adapter writes that actually happened, in program order. -/
structure SaveOutcome where
  success : Bool
  error : Option String
  writes : List WriteEvent
deriving DecidableEq, Repr

/-- `FileStorage.saveBoard`: fail early without a workspace; otherwise write
the primary file, then (when extension storage exists) the backup copy; any
throw inside the `try` block is caught and reported as `{success: false}`. -/
def fsSaveBoard (env : FsEnv) (b : KanbanBoard) (now : Nat) (extVersion : String) :
    SaveOutcome :=
  if !env.workspaceAvailable then
    { success := false, error := some "No workspace available for saving", writes := [] }
  else
    let d := mkBoardFileData b now extVersion
    match env.primaryWriteError with
    | some msg => { success := false, error := some msg, writes := [] }
    | none =>
      if env.extensionStorageAvailable then
        match env.backupWriteError with
        | some msg => { success := false, error := some msg, writes := [.primary d] }
        | none => { success := true, error := none, writes := [.primary d, .backup d] }
      else
        { success := true, error := none, writes := [.primary d] }

/-- A concrete board with one column holding one card, all timestamps native
`Date` values — the input of the round-trip counterexample. -/
def exBoard : KanbanBoard :=
  { id := "board1",
    name := "Sprint 1",
    description := some "demo board",
    columns :=
      [ { id := "board1-col-0",
          title := "To Do",
          cards :=
            [ { id := "c1",
                title := "Fix bug",
                description := none,
                priority := .medium,
                tags := [],
                assignee := none,
                dueDate := none,
                createdAt := .date 5,
                lastModified := .date 6,
                color := none,
                estimatedEffort := none,
                actualEffort := none } ],
          maxCards := none,
          color := none } ],
    createdAt := .date 1,
    lastModified := .date 2,
    filePath := ".kanri/board1.kanri.json" }

/-- A second concrete board (distinct id), used to exercise cross-board
behavior of the shared auto-save timer. -/
def exBoardB : KanbanBoard :=
  { id := "board2",
    name := "Sprint 2",
    description := none,
    columns := [],
    createdAt := .date 3,
    lastModified := .date 4,
    filePath := ".kanri/board2.kanri.json" }

/-- A board whose `Date` fields (including those of nested cards) are native
in-memory `Date` values, as every board built by `BoardManager` is. -/
def nativeBoard (b : KanbanBoard) : Prop :=
  b.createdAt.isNative ∧ b.lastModified.isNative ∧
    ∀ col ∈ b.columns, ∀ c ∈ col.cards,
      c.createdAt.isNative ∧ c.lastModified.isNative ∧
        ∀ t ∈ c.dueDate, TimeVal.isNative t

end Boards

namespace Manager

open AList Boards

/-- `BoardManager` state relevant to saving and watching: the
`loadedBoards` cache, the single `autoSaveTimer` (holding the board captured
by the pending `setTimeout` closure, `none` when no write is pending), the
on-disk board files, the `autoSave` configuration value, and the extension
version used in file metadata.  `writeLog` records every durable write
performed through `writeBoardToFile`, in order. -/
structure BMState where
  loadedBoards : List (String × KanbanBoard)
  autoSaveTimer : Option KanbanBoard
  disk : List (String × BoardFileData)
  writeLog : List (String × KanbanBoard)
  autoSave : Bool
  extVersion : String
deriving DecidableEq, Repr

/-- `BoardManager.writeBoardToFile`: pass the board to `fileStorage.saveBoard`
(adapter writes assumed to succeed here), updating the board's file and
recording the durable write. -/
def bmWriteBoard (s : BMState) (b : KanbanBoard) (now : Nat) : BMState :=
  { s with disk := alSet s.disk b.id (mkBoardFileData b now s.extVersion),
           writeLog := s.writeLog ++ [(b.id, b)] }

/-- `BoardManager.saveBoard`: stamp `lastModified`, update the cache, then
either restart the (single, shared) auto-save timer with this board — calling
`clearTimeout` on whatever timer was pending, for any board — or, with
auto-save off, write immediately. -/
def bmSaveBoard (s : BMState) (b : KanbanBoard) (now : Nat) : BMState :=
  let b1 := { b with lastModified := TimeVal.date now }
  let s1 := { s with loadedBoards := alSet s.loadedBoards b1.id b1 }
  if s1.autoSave then { s1 with autoSaveTimer := some b1 }
  else bmWriteBoard s1 b1 now

/-- The auto-save timer firing at clock reading `now`: the pending closure
writes its captured board; the timer is spent afterwards. -/
def bmTimerFire (s : BMState) (now : Nat) : BMState :=
  match s.autoSaveTimer with
  | some b => bmWriteBoard { s with autoSaveTimer := none } b now
  | none => s

/-- The `onDidChange` callback of `BoardManager.setupFileWatcher` for a board
file: if the board is cached, drop the cache entry and reload the board from
its file via `getBoard` → `fileStorage.loadBoard`; the auto-save timer is not
consulted and no reconciliation is performed. -/
def bmOnDidChange (s : BMState) (boardId : String) : BMState :=
  match alGet s.loadedBoards boardId with
  | some _ =>
    let s1 := { s with loadedBoards := alErase s.loadedBoards boardId }
    match alGet s1.disk boardId with
    | some d =>
      match loadBoardData d with
      | some b => { s1 with loadedBoards := alSet s1.loadedBoards boardId b }
      | none => s1
    | none => s1
  | none => s

/-- A burst of `saveBoard` calls (board and clock reading per call), applied
in order with no timer expiry in between — i.e. all inside one debounce
window. -/
def runSaves (s : BMState) (calls : List (KanbanBoard × Nat)) : BMState :=
  calls.foldl (fun st c => bmSaveBoard st c.1 c.2) s

/-- A fresh `BoardManager` with auto-save enabled and nothing loaded. -/
def exBM0 : BMState :=
  { loadedBoards := [], autoSaveTimer := none, disk := [], writeLog := [],
    autoSave := true, extVersion := "0.1.0" }

/-- The current in-memory version of `board1` in the watcher counterexample:
newer than the copy on disk. -/
def exC3Fresh : Boards.KanbanBoard := { Boards.exBoard with lastModified := .date 100 }

/-- The stale version of `board1` whose file contents still sit on disk. -/
def exC3Old : Boards.KanbanBoard :=
  { Boards.exBoard with name := "old name", lastModified := .date 50 }

/-- Watcher counterexample state: `board1` is cached in its fresh form, a
debounced save for it is pending, and the disk still holds the stale copy. -/
def exC3State : BMState :=
  { loadedBoards := [("board1", exC3Fresh)],
    autoSaveTimer := some exC3Fresh,
    disk := [("board1", Boards.mkBoardFileData exC3Old 50 "0.1.0")],
    writeLog := [],
    autoSave := true,
    extVersion := "0.1.0" }

end Manager

namespace Router

/-- A webview message as validated by `WebviewMessageRouter.validateMessage`:
`command`, `requestId`, numeric `timestamp` and a `source` tag (kept as the
raw string so malformed tags are expressible). -/
structure WebviewMessage where
  command : String
  requestId : String
  timestamp : Int
  source : String
deriving DecidableEq, Repr

/-- The response shape relevant to the router itself (`requestId`, `success`,
`error`, `processingTime`); handler payload data is not modelled. -/
structure Response where
  requestId : String
  success : Bool
  error : Option String
  processingTime : Nat
deriving DecidableEq, Repr

/-- The router's performance counters. -/
structure Metrics where
  totalMessages : Nat
  averageProcessingTime : ℚ
  errorCount : Nat
deriving DecidableEq, Repr

/-- Router state: the registered command names, the in-flight `requestId`
set, the metrics, and a log of handler invocations `(command, requestId)` in
order (recording each time a registered handler is actually called). -/
structure RouterState where
  handlers : List String
  pending : List String
  metrics : Metrics
  callLog : List (String × String)
deriving DecidableEq, Repr

/-- State after the constructor ran `registerSystemHandlers`. -/
def initialRouter : RouterState :=
  { handlers := ["ping", "reportError", "getMetrics"],
    pending := [],
    metrics := { totalMessages := 0, averageProcessingTime := 0, errorCount := 0 },
    callLog := [] }

/-- `WebviewMessageRouter.validateMessage`: returns the first failing check's
message, or `none` for a valid message. -/
def validateMessage (m : WebviewMessage) : Option String :=
  if strTrim m.command = "" then some "Command must be a non-empty string"
  else if strTrim m.requestId = "" then some "RequestId must be a non-empty string"
  else if m.timestamp ≤ 0 then some "Timestamp must be a positive number"
  else if m.source ≠ "extension" ∧ m.source ≠ "webview" then
    some "Source must be \x22extension\x22 or \x22webview\x22"
  else none

/-- `WebviewMessageRouter.createErrorResponse`: a failure response carrying
the elapsed time since dispatch started. -/
def mkErrorResponse (requestId err : String) (elapsed : Nat) : Response :=
  { requestId := requestId, success := false, error := some err, processingTime := elapsed }

/-- `WebviewMessageRouter.updatePerformanceMetrics`: bump `totalMessages`,
bump `errorCount` when the dispatch failed with an exception, and fold the
latency into an exponential moving average with `alpha = 0.1` (the first
sample is taken as-is). -/
def updatePerformanceMetrics (mt : Metrics) (processingTime : Nat) (success : Bool) :
    Metrics :=
  let mt1 := { mt with totalMessages := mt.totalMessages + 1 }
  let mt2 := if success then mt1 else { mt1 with errorCount := mt1.errorCount + 1 }
  let alpha : ℚ := 1 / 10
  if mt2.averageProcessingTime = 0 then
    { mt2 with averageProcessingTime := (processingTime : ℚ) }
  else
    { mt2 with averageProcessingTime :=
        alpha * (processingTime : ℚ) + (1 - alpha) * mt2.averageProcessingTime }

/-- What `processMessage` did up to its `await handler(...)` suspension
point: either it already returned an error response (validation failure,
missing handler, duplicate requestId — all without touching the metrics), or
it registered the requestId as in flight and invoked the handler. -/
inductive DispatchStart
  | earlyError (r : Response)
  | launched
deriving DecidableEq, Repr

/-- The pre-await phase of `WebviewMessageRouter.processMessage`: validate,
look the handler up, reject duplicates, then mark the request in flight and
invoke the handler (recorded in `callLog`).  `elapsed` is the clock delta an
early error response observes. -/
def dispatchStart (s : RouterState) (m : WebviewMessage) (elapsed : Nat) :
    RouterState × DispatchStart :=
  match validateMessage m with
  | some err =>
      (s, .earlyError (mkErrorResponse m.requestId ("Invalid message format: " ++ err) elapsed))
  | none =>
    if m.command ∈ s.handlers then
      if m.requestId ∈ s.pending then
        (s, .earlyError
          (mkErrorResponse m.requestId ("Duplicate request ID: " ++ m.requestId) elapsed))
      else
        ({ s with pending := s.pending ++ [m.requestId],
                  callLog := s.callLog ++ [(m.command, m.requestId)] }, .launched)
    else
      (s, .earlyError
        (mkErrorResponse m.requestId ("No handler registered for command: " ++ m.command) elapsed))

/-- How an invoked handler finished: it returned a response (with its own
`success` flag and error text), or it threw. -/
inductive HandlerOutcome
  | ok (success : Bool) (error : Option String)
  | throws (msg : String)
deriving DecidableEq, Repr

/-- The post-await phase of `processMessage` for a launched dispatch: the
`finally` block removes the requestId from the in-flight set in both cases;
a returned response gets its `processingTime`/`requestId` fixed up and a
success metrics update, a throw is converted by the outer `catch` into a
failure response after a failure metrics update. -/
def dispatchFinish (s : RouterState) (m : WebviewMessage) (o : HandlerOutcome)
    (elapsed : Nat) : RouterState × Response :=
  match o with
  | .ok success err =>
      ({ s with pending := s.pending.erase m.requestId,
                metrics := updatePerformanceMetrics s.metrics elapsed true },
       { requestId := m.requestId, success := success, error := err,
         processingTime := elapsed })
  | .throws msg =>
      ({ s with pending := s.pending.erase m.requestId,
                metrics := updatePerformanceMetrics s.metrics elapsed false },
       { requestId := m.requestId, success := false,
         error := some ("Processing failed: " ++ msg), processingTime := elapsed })

end Router

namespace AList

variable {κ : Type} {α : Type} [DecidableEq κ]

theorem alGet_alSet_self (s : List (κ × α)) (k : κ) (v : α) :
    alGet (alSet s k v) k = some v := by
  induction s with
  | nil => simp [alGet, alSet]
  | cons hd tl ih =>
    obtain ⟨k2, v2⟩ := hd
    by_cases h : k2 = k <;> simp [alGet, alSet, h, ih]

theorem alGet_alSet_ne (s : List (κ × α)) (k k2 : κ) (v : α) (h : k ≠ k2) :
    alGet (alSet s k v) k2 = alGet s k2 := by
  induction s with
  | nil => simp [alGet, alSet, h]
  | cons hd tl ih =>
    obtain ⟨k3, v3⟩ := hd
    by_cases h3 : k3 = k
    · subst h3; simp [alGet, alSet, h]
    · simp only [alSet, if_neg h3]
      by_cases h4 : k3 = k2 <;> simp [alGet, h4, ih]

theorem alGet_eq_none_of_not_mem (s : List (κ × α)) (k : κ)
    (h : k ∉ s.map Prod.fst) : alGet s k = none := by
  induction s with
  | nil => simp [alGet]
  | cons hd tl ih =>
    obtain ⟨k2, v2⟩ := hd
    simp only [List.map_cons, List.mem_cons] at h
    push_neg at h
    have hne : ¬k2 = k := fun heq => h.1 heq.symm
    simp [alGet, hne, ih h.2]

theorem alGet_alErase_self (s : List (κ × α)) (k : κ)
    (hnd : (s.map Prod.fst).Nodup) : alGet (alErase s k) k = none := by
  induction s with
  | nil => simp [alErase, alGet]
  | cons hd tl ih =>
    obtain ⟨k2, v2⟩ := hd
    simp only [List.map_cons, List.nodup_cons] at hnd
    by_cases h : k2 = k
    · subst h
      simpa [alErase] using alGet_eq_none_of_not_mem tl k2 hnd.1
    · simp [alErase, h, alGet, ih hnd.2]

theorem mem_of_alGet (s : List (κ × α)) (k : κ) (v : α) (h : alGet s k = some v) :
    (k, v) ∈ s := by
  induction s with
  | nil => simp [alGet] at h
  | cons hd tl ih =>
    obtain ⟨k2, v2⟩ := hd
    by_cases h2 : k2 = k
    · subst h2
      simp only [alGet, if_pos] at h
      rw [Option.some.injEq] at h
      subst h
      exact List.mem_cons_self _ _
    · simp only [alGet, if_neg h2] at h
      exact List.mem_cons_of_mem _ (ih h)

theorem mem_alSet (s : List (κ × α)) (k : κ) (v : α) (x : κ × α)
    (h : x ∈ alSet s k v) : x = (k, v) ∨ x ∈ s := by
  induction s with
  | nil => simpa [alSet] using h
  | cons hd tl ih =>
    obtain ⟨k2, v2⟩ := hd
    by_cases h2 : k2 = k
    · subst h2
      simp only [alSet, if_pos, List.mem_cons] at h
      rcases h with h3 | h3
      · exact Or.inl h3
      · exact Or.inr (List.mem_cons_of_mem _ h3)
    · simp only [alSet, if_neg h2, List.mem_cons] at h
      rcases h with h3 | h3
      · exact Or.inr (by simp [h3])
      · rcases ih h3 with h4 | h4
        · exact Or.inl h4
        · exact Or.inr (List.mem_cons_of_mem _ h4)

theorem keys_alSet_of_mem (s : List (κ × α)) (k : κ) (v : α)
    (h : k ∈ s.map Prod.fst) : (alSet s k v).map Prod.fst = s.map Prod.fst := by
  induction s with
  | nil => simp at h
  | cons hd tl ih =>
    obtain ⟨k2, v2⟩ := hd
    by_cases h2 : k2 = k
    · subst h2; simp [alSet]
    · simp only [List.map_cons, List.mem_cons] at h
      rcases h with h3 | h3
      · exact absurd h3.symm h2
      · simp [alSet, h2, ih h3]

theorem keys_alSet_of_not_mem (s : List (κ × α)) (k : κ) (v : α)
    (h : k ∉ s.map Prod.fst) : (alSet s k v).map Prod.fst = s.map Prod.fst ++ [k] := by
  induction s with
  | nil => simp [alSet]
  | cons hd tl ih =>
    obtain ⟨k2, v2⟩ := hd
    simp only [List.map_cons, List.mem_cons] at h
    push_neg at h
    have hne : ¬k2 = k := fun heq => h.1 heq.symm
    simp [alSet, hne, ih h.2]

theorem nodupKeys_alSet (s : List (κ × α)) (k : κ) (v : α)
    (h : (s.map Prod.fst).Nodup) : ((alSet s k v).map Prod.fst).Nodup := by
  by_cases hm : k ∈ s.map Prod.fst
  · rw [keys_alSet_of_mem s k v hm]; exact h
  · rw [keys_alSet_of_not_mem s k v hm]
    simp [List.nodup_append, h, List.disjoint_singleton, hm]

theorem alErase_sublist (s : List (κ × α)) (k : κ) : List.Sublist (alErase s k) s := by
  induction s with
  | nil => simp [alErase]
  | cons hd tl ih =>
    obtain ⟨k2, v2⟩ := hd
    by_cases h : k2 = k
    · simp only [alErase, if_pos h]
      exact List.sublist_cons_self (k2, v2) tl
    · simpa [alErase, h] using ih.cons₂ (k2, v2)

theorem mem_alErase (s : List (κ × α)) (k : κ) (x : κ × α)
    (h : x ∈ alErase s k) : x ∈ s := (alErase_sublist s k).mem h

theorem nodupKeys_alErase (s : List (κ × α)) (k : κ)
    (h : (s.map Prod.fst).Nodup) : ((alErase s k).map Prod.fst).Nodup :=
  h.sublist ((alErase_sublist s k).map Prod.fst)

end AList

namespace Cards

open AList

theorem entryCard_eq_some (x : CardKey × StoreVal) (c : KanbanCard)
    (h : entryCard x = some c) : ∃ i, x = (.card i, .card c) := by
  obtain ⟨k, v⟩ := x
  cases k <;> cases v <;> simp_all [entryCard]

theorem activeCards_cons_card (i : String) (c : KanbanCard) (rest : Memento) :
    activeCards ((CardKey.card i, StoreVal.card c) :: rest) = c :: activeCards rest := rfl

theorem activeCards_cons_none (x : CardKey × StoreVal) (rest : Memento)
    (h : entryCard x = none) : activeCards (x :: rest) = activeCards rest := by
  simp [activeCards, List.filterMap_cons, h]

theorem bucketOf_indexInsert (m : List (String × List String)) (col c i : String) :
    bucketOf (indexInsert m c i) col
      = bucketOf m col ++ (if c = col then [i] else []) := by
  induction m with
  | nil =>
    by_cases h : c = col <;> simp [indexInsert, bucketOf, alGet, h]
  | cons hd tl ih =>
    obtain ⟨c2, ids⟩ := hd
    by_cases h2 : c2 = c
    · subst h2
      by_cases h3 : c2 = col
      · subst h3; simp [indexInsert, bucketOf, alGet]
      · simp [indexInsert, bucketOf, alGet, h3]
    · by_cases h3 : c2 = col
      · subst h3
        have hcc : ¬c = c2 := fun heq => h2 heq.symm
        simp [indexInsert, bucketOf, alGet, h2, hcc]
      · simpa [indexInsert, bucketOf, alGet, h2, h3] using ih

theorem bucketOf_foldIndex (l : List KanbanCard) (m0 : List (String × List String))
    (col : String) :
    bucketOf (l.foldl (fun m c => indexInsert m c.columnId c.id) m0) col
      = bucketOf m0 col ++ (l.filter (fun c => c.columnId == col)).map KanbanCard.id := by
  induction l generalizing m0 with
  | nil => simp
  | cons c rest ih =>
    rw [List.foldl_cons, ih, bucketOf_indexInsert]
    by_cases h : c.columnId = col <;> simp [List.filter_cons, h]

theorem bucketOf_computeIndex (s : Memento) (col : String) :
    bucketOf (computeIndex s) col
      = ((activeCards s).filter (fun c => c.columnId == col)).map KanbanCard.id := by
  have h := bucketOf_foldIndex (activeCards s) [] col
  simpa [computeIndex, bucketOf, alGet] using h

theorem card_key_mem_of_mem_activeCards (s : Memento) (hci : CardIdsOK s)
    (c : KanbanCard) (hc : c ∈ activeCards s) :
    CardKey.card c.id ∈ s.map Prod.fst := by
  induction s with
  | nil => simp [activeCards] at hc
  | cons x rest ih =>
    have hciRest : CardIdsOK rest := fun id v hmem => hci id v (List.mem_cons_of_mem _ hmem)
    rcases hx : entryCard x with _ | d
    · rw [activeCards_cons_none x rest hx] at hc
      exact List.mem_cons_of_mem _ (ih hciRest hc)
    · obtain ⟨i, rfl⟩ := entryCard_eq_some x d hx
      rw [activeCards_cons_card] at hc
      rcases List.mem_cons.1 hc with h3 | h3
      · subst h3
        obtain ⟨c2, hc2, hid⟩ := hci i (StoreVal.card c) (List.mem_cons_self _ _)
        have h5 : c = c2 := StoreVal.card.inj hc2
        subst h5
        simp [hid]
      · exact List.mem_cons_of_mem _ (ih hciRest h3)

theorem alGet_of_mem_activeCards (s : Memento) (hnd : NodupKeys s) (hci : CardIdsOK s)
    (c : KanbanCard) (hc : c ∈ activeCards s) :
    alGet s (.card c.id) = some (.card c) := by
  induction s with
  | nil => simp [activeCards] at hc
  | cons x rest ih =>
    obtain ⟨k, v⟩ := x
    have hndRest : NodupKeys rest := (List.nodup_cons.1 hnd).2
    have hkRest : k ∉ rest.map Prod.fst := (List.nodup_cons.1 hnd).1
    have hciRest : CardIdsOK rest := fun id v2 hmem => hci id v2 (List.mem_cons_of_mem _ hmem)
    rcases hx : entryCard (k, v) with _ | d
    · rw [activeCards_cons_none _ rest hx] at hc
      have hne : k ≠ CardKey.card c.id := by
        intro heq
        subst heq
        obtain ⟨c2, hc2, _⟩ := hci c.id v (List.mem_cons_self _ _)
        subst hc2
        simp [entryCard] at hx
      simp only [alGet, if_neg hne]
      exact ih hndRest hciRest hc
    · obtain ⟨i, heq⟩ := entryCard_eq_some (k, v) d hx
      injection heq with hk hv
      subst hk
      subst hv
      have hdid : d.id = i := by
        obtain ⟨c2, hc2, hid⟩ := hci i (StoreVal.card d) (List.mem_cons_self _ _)
        have h5 : d = c2 := StoreVal.card.inj hc2
        subst h5
        exact hid
      rw [activeCards_cons_card] at hc
      rcases List.mem_cons.1 hc with h3 | h3
      · subst h3
        simp [alGet, hdid]
      · have hne : CardKey.card i ≠ CardKey.card c.id := by
          intro heq2
          rw [heq2] at hkRest
          exact hkRest (card_key_mem_of_mem_activeCards rest hciRest c h3)
        simp only [alGet, if_neg hne]
        exact ih hndRest hciRest h3

theorem filterMap_getCard (s : Memento) (l : List KanbanCard)
    (h : ∀ c ∈ l, alGet s (.card c.id) = some (.card c)) :
    (l.map KanbanCard.id).filterMap (getCard s) = l.map reviveCard := by
  induction l with
  | nil => simp
  | cons c rest ih =>
    have hc := h c (List.mem_cons_self _ _)
    have hRest : ∀ d ∈ rest, alGet s (.card d.id) = some (.card d) :=
      fun d hd => h d (List.mem_cons_of_mem _ hd)
    simp [List.filterMap_cons, getCard, hc, ih hRest]

theorem getCardsByColumn_of_wf (s : Memento) (hwf : StoreWF s) (col : String) :
    getCardsByColumn s col
      = List.insertionSort byOrder
          (((activeCards s).filter (fun c => c.columnId == col)).map reviveCard) := by
  unfold getCardsByColumn
  have hidx : storedIndex s = computeIndex s := by
    simp [storedIndex, hwf.indexOK]
  rw [hidx, bucketOf_computeIndex, filterMap_getCard]
  intro c hcmem
  exact alGet_of_mem_activeCards s hwf.nodupKeys hwf.cardIds c (List.mem_filter.1 hcmem).1

end Cards

namespace Cards

open AList

theorem foldIndex_congr (l1 l2 : List KanbanCard) (m : List (String × List String))
    (h : l1.map (fun c => (c.columnId, c.id)) = l2.map (fun c => (c.columnId, c.id))) :
    l1.foldl (fun m c => indexInsert m c.columnId c.id) m
      = l2.foldl (fun m c => indexInsert m c.columnId c.id) m := by
  induction l1 generalizing l2 m with
  | nil =>
    cases l2 with
    | nil => rfl
    | cons c2 r2 => simp at h
  | cons c1 r1 ih =>
    cases l2 with
    | nil => simp at h
    | cons c2 r2 =>
      simp only [List.map_cons, List.cons.injEq] at h
      obtain ⟨hcol, hid⟩ := Prod.mk.injEq .. ▸ h.1
      rw [List.foldl_cons, List.foldl_cons, hcol, hid, ih r2 _ h.2]

theorem activeCards_alSet_colIndex (s : Memento) (v : StoreVal)
    (hv : ∀ c, v ≠ StoreVal.card c) :
    activeCards (alSet s .colIndex v) = activeCards s := by
  induction s with
  | nil =>
    have hnone : entryCard (CardKey.colIndex, v) = none := by
      cases v <;> simp [entryCard]
    simp [alSet, activeCards, List.filterMap_cons, hnone]
  | cons x rest ih =>
    obtain ⟨k, v2⟩ := x
    by_cases hk : k = CardKey.colIndex
    · subst hk
      have h1 : entryCard (CardKey.colIndex, v) = none := by cases v <;> simp [entryCard]
      have h2 : entryCard (CardKey.colIndex, v2) = none := by cases v2 <;> simp [entryCard]
      simp [alSet, activeCards, List.filterMap_cons, h1, h2]
    · have hk2 : ¬k = CardKey.colIndex := hk
      simp only [alSet, if_neg hk2]
      rcases hx : entryCard (k, v2) with _ | d
      · rw [activeCards_cons_none _ _ hx, activeCards_cons_none _ _ hx, ih]
      · obtain ⟨i, heq⟩ := entryCard_eq_some (k, v2) d hx
        injection heq with hkk hvv
        subst hkk; subst hvv
        rw [activeCards_cons_card, activeCards_cons_card, ih]

theorem computeIndex_alSet_colIndex (s : Memento) (v : StoreVal)
    (hv : ∀ c, v ≠ StoreVal.card c) :
    computeIndex (alSet s .colIndex v) = computeIndex s := by
  unfold computeIndex
  rw [activeCards_alSet_colIndex s v hv]

theorem pairs_alSet_card (s : Memento) (i : String) (c c0 : KanbanCard)
    (hget : alGet s (.card i) = some (.card c0))
    (hid : c.id = c0.id) (hcol : c.columnId = c0.columnId) :
    (activeCards (alSet s (.card i) (.card c))).map (fun d => (d.columnId, d.id))
      = (activeCards s).map (fun d => (d.columnId, d.id)) := by
  induction s with
  | nil => simp [alGet] at hget
  | cons x rest ih =>
    obtain ⟨k, v⟩ := x
    by_cases hk : k = CardKey.card i
    · subst hk
      simp only [alGet, if_pos] at hget
      rw [Option.some.injEq] at hget
      subst hget
      simp only [alSet, if_pos]
      rw [activeCards_cons_card, activeCards_cons_card]
      simp [hid, hcol]
    · simp only [alGet, if_neg hk] at hget
      simp only [alSet, if_neg hk]
      rcases hx : entryCard (k, v) with _ | d
      · rw [activeCards_cons_none _ _ hx, activeCards_cons_none _ _ hx]
        exact ih hget
      · obtain ⟨i2, heq⟩ := entryCard_eq_some (k, v) d hx
        injection heq with hkk hvv
        subst hkk; subst hvv
        rw [activeCards_cons_card, activeCards_cons_card]
        simp only [List.map_cons, List.cons.injEq]
        exact ⟨by simp, ih hget⟩

theorem cardIdsOK_alSet (s : Memento) (k : CardKey) (v : StoreVal)
    (h : CardIdsOK s)
    (hk : ∀ i, k = CardKey.card i → ∃ c, v = StoreVal.card c ∧ c.id = i) :
    CardIdsOK (alSet s k v) := by
  intro id v2 hmem
  rcases mem_alSet s k v _ hmem with heq | hmem2
  · injection heq with h1 h2
    subst h2
    exact hk id h1.symm
  · exact h id v2 hmem2

theorem cardIdsOK_alErase (s : Memento) (k : CardKey) (h : CardIdsOK s) :
    CardIdsOK (alErase s k) :=
  fun id v hmem => h id v (mem_alErase s k _ hmem)

theorem storeWF_updateCardIndex (s : Memento) (h1 : NodupKeys s) (h2 : CardIdsOK s) :
    StoreWF (updateCardIndex s) := by
  have hv : ∀ c, StoreVal.colIndex (computeIndex s) ≠ StoreVal.card c := fun c h => by
    injection h
  refine ⟨nodupKeys_alSet s _ _ h1, cardIdsOK_alSet s _ _ h2 ?_, ?_⟩
  · intro i hi
    cases hi
  · show alGet (alSet s .colIndex _) .colIndex = _
    rw [alGet_alSet_self]
    unfold updateCardIndex
    rw [computeIndex_alSet_colIndex s _ hv]

theorem nodupKeys_saveCard (s : Memento) (c : KanbanCard) (h : NodupKeys s) :
    NodupKeys (saveCard s c) :=
  nodupKeys_alSet s _ _ h

theorem cardIdsOK_saveCard (s : Memento) (c : KanbanCard) (h : CardIdsOK s) :
    CardIdsOK (saveCard s c) := by
  refine cardIdsOK_alSet s _ _ h ?_
  intro i hi
  injection hi with h2
  exact ⟨serializeCard c, rfl, h2 ▸ rfl⟩

end Cards

namespace Cards

open AList

theorem computeIndex_congr (s1 s2 : Memento)
    (h : (activeCards s1).map (fun d => (d.columnId, d.id))
          = (activeCards s2).map (fun d => (d.columnId, d.id))) :
    computeIndex s1 = computeIndex s2 :=
  foldIndex_congr _ _ _ h

theorem updated_columnId_of_not_changed (cur : KanbanCard) (u : CardUpdates) (now : Nat)
    (hop : u.columnId ≠ some "") (hcc : columnChanged u cur = false) :
    (applyUpdates cur u now).columnId = cur.columnId := by
  unfold applyUpdates columnChanged at *
  cases hu : u.columnId with
  | none => simp [hu]
  | some cstr =>
    rw [hu] at hcc
    simp only [Bool.and_eq_false_iff, decide_eq_false_iff_not, ne_eq, not_not] at hcc
    have hne : cstr ≠ "" := fun h2 => hop (hu.symm ▸ h2 ▸ rfl)
    rcases hcc with hcc | hcc
    · exact absurd hcc hne
    · simp [hu, hcc]

theorem storeWF_createCard (s : Memento) (hwf : StoreWF s) (cardId : String) (now : Nat)
    (title : String) (description : Option String) (columnId : String)
    (tags : List String) (priority : Option Priority) :
    StoreWF (createCard s cardId now title description columnId tags priority).1 := by
  exact storeWF_updateCardIndex _
    (nodupKeys_saveCard s _ hwf.nodupKeys)
    (cardIdsOK_saveCard s _ hwf.cardIds)

theorem storeWF_updateCard (s : Memento) (hwf : StoreWF s) (cardId : String)
    (u : CardUpdates) (now : Nat) (hop : u.columnId ≠ some "") :
    StoreWF (updateCard s cardId u now).1 := by
  unfold updateCard
  rcases hg : getCard s cardId with _ | cur
  · simpa using hwf
  · simp only []
    unfold getCard at hg
    rcases halg : alGet s (.card cardId) with _ | v
    · rw [halg] at hg; simp at hg
    · rw [halg] at hg
      cases v with
      | card c0 =>
        rw [Option.some.injEq] at hg
        have hcid : c0.id = cardId := by
          obtain ⟨c2, hc2, hid⟩ := hwf.cardIds cardId _ (mem_of_alGet s _ _ halg)
          have h5 : c0 = c2 := StoreVal.card.inj hc2
          subst h5
          exact hid
        have hcurid : cur.id = c0.id := by rw [← hg]; rfl
        have hcurcol : cur.columnId = c0.columnId := by rw [← hg]; rfl
        by_cases hcc : columnChanged u cur
        · simp only [hcc, if_pos]
          exact storeWF_updateCardIndex _
            (nodupKeys_saveCard s _ hwf.nodupKeys)
            (cardIdsOK_saveCard s _ hwf.cardIds)
        · rw [Bool.not_eq_true] at hcc
          simp only [hcc, Bool.false_eq_true, if_neg, ite_false]
          set updated := applyUpdates cur u now with hupdated
          have hid2 : (serializeCard updated).id = c0.id := by
            rw [← hcurid]; rfl
          have hcol2 : (serializeCard updated).columnId = c0.columnId := by
            have h6 : updated.columnId = cur.columnId :=
              updated_columnId_of_not_changed cur u now hop hcc
            rw [← hcurcol, ← h6]; rfl
          have hkey : updated.id = cardId := by
            rw [show updated.id = cur.id from rfl, hcurid, hcid]
          refine ⟨nodupKeys_saveCard s _ hwf.nodupKeys,
                  cardIdsOK_saveCard s _ hwf.cardIds, ?_⟩
          have hpairs := pairs_alSet_card s cardId (serializeCard updated) c0
            halg hid2 hcol2
          have hsave : saveCard s updated
              = alSet s (.card cardId) (.card (serializeCard updated)) := by
            unfold saveCard
            rw [hkey]
          rw [hsave, alGet_alSet_ne s _ _ _ (fun h8 => by cases h8), hwf.indexOK,
              computeIndex_congr _ _ hpairs]
      | deletedCard d => simp at hg
      | colIndex m => simp at hg

theorem storeWF_deleteCard (s : Memento) (hwf : StoreWF s) (cardId : String) (now : Nat) :
    StoreWF (deleteCard s cardId now).1 := by
  unfold deleteCard
  rcases halg : alGet s (.card cardId) with _ | v
  · simpa using hwf
  · cases v with
    | card ex =>
      simp only []
      refine storeWF_updateCardIndex _ ?_ ?_
      · exact nodupKeys_alErase _ _ (nodupKeys_alSet s _ _ hwf.nodupKeys)
      · refine cardIdsOK_alErase _ _ (cardIdsOK_alSet s _ _ hwf.cardIds ?_)
        intro i hi
        cases hi
    | deletedCard d => simpa using hwf
    | colIndex m => simpa using hwf

theorem storeWF_applyOp (s : Memento) (op : CardOp) (hwf : StoreWF s) (hop : op.WF) :
    StoreWF (applyOp s op) := by
  cases op with
  | create cardId now title description columnId tags priority =>
    exact storeWF_createCard s hwf cardId now title description columnId tags priority
  | update cardId u now => exact storeWF_updateCard s hwf cardId u now hop
  | delete cardId now => exact storeWF_deleteCard s hwf cardId now

theorem storeWF_applyOps (s : Memento) (ops : List CardOp) (hwf : StoreWF s)
    (hops : ∀ op ∈ ops, op.WF) : StoreWF (applyOps s ops) := by
  induction ops generalizing s with
  | nil => simpa [applyOps] using hwf
  | cons op rest ih =>
    have h1 := storeWF_applyOp s op hwf (hops op (List.mem_cons_self _ _))
    have h2 : ∀ op2 ∈ rest, op2.WF := fun op2 hm => hops op2 (List.mem_cons_of_mem _ hm)
    simpa [applyOps] using ih (applyOp s op) h1 h2

theorem storeWF_initMemento : StoreWF initMemento := by
  refine storeWF_updateCardIndex [] ?_ ?_
  · simp [NodupKeys]
  · intro id v h
    simp at h

end Cards

namespace Cards

open AList

/-- C2, counterexample: after creating card `cardZ` in `col1`, creating
`cardA` in `col2`, and moving `cardA` to `col1`, both cards in `col1` have
order 1, yet `getCardsByColumn` returns them in index (storage-insertion)
order `[cardZ, cardA]`, not in the id order `[cardA, cardZ]` the claim's
tie-break demands. -/
theorem C2_counterexample :
    (getCardsByColumn exState "col1").map KanbanCard.id = ["cardZ", "cardA"]
    ∧ (getCardsByColumn exState "col1").map KanbanCard.order = [1, 1]
    ∧ (getCardsByColumnSpec exState "col1").map KanbanCard.id = ["cardA", "cardZ"]
    ∧ getCardsByColumn exState "col1" ≠ getCardsByColumnSpec exState "col1" := by
  decide

/-- C2 (amended): after any sequence of well-formed create/move/update/delete
operations, `getCardsByColumn col` returns exactly the non-soft-deleted cards
whose `columnId` is `col` (dates revived), sorted by their integer `order`
field — with ties left in storage/index insertion order (the stable-sort
order), not broken by card id. -/
theorem C2_index_correct (ops : List CardOp) (col : String)
    (hops : ∀ op ∈ ops, op.WF) :
    getCardsByColumn (applyOps initMemento ops) col
      = List.insertionSort byOrder
          (((activeCards (applyOps initMemento ops)).filter
              (fun c => c.columnId == col)).map reviveCard)
    ∧ List.Sorted byOrder (getCardsByColumn (applyOps initMemento ops) col)
    ∧ List.Perm (getCardsByColumn (applyOps initMemento ops) col)
        (((activeCards (applyOps initMemento ops)).filter
            (fun c => c.columnId == col)).map reviveCard) := by
  have hwf := storeWF_applyOps initMemento ops storeWF_initMemento hops
  have heq := getCardsByColumn_of_wf _ hwf col
  refine ⟨heq, ?_, ?_⟩
  · unfold getCardsByColumn
    exact List.sorted_insertionSort byOrder _
  · rw [heq]
    exact List.perm_insertionSort byOrder _

/-- Witness for C2 (amended), at the concrete operation sequence of the
counterexample and column `col1`. -/
theorem C2_index_correct_witness :
    getCardsByColumn (applyOps initMemento exOps) "col1"
      = List.insertionSort byOrder
          (((activeCards (applyOps initMemento exOps)).filter
              (fun c => c.columnId == "col1")).map reviveCard)
    ∧ List.Sorted byOrder (getCardsByColumn (applyOps initMemento exOps) "col1")
    ∧ List.Perm (getCardsByColumn (applyOps initMemento exOps) "col1")
        (((activeCards (applyOps initMemento exOps)).filter
            (fun c => c.columnId == "col1")).map reviveCard) :=
  C2_index_correct exOps "col1" (by
    intro op hop
    simp only [exOps, List.mem_cons, List.not_mem_nil, or_false] at hop
    rcases hop with rfl | rfl | rfl
    · trivial
    · trivial
    · intro h
      exact absurd (Option.some.inj h) (by decide))

end Cards

namespace Cards

open AList

theorem reviveTime_as_date (t : TimeVal) : ∃ m, reviveTime t = TimeVal.date m := by
  cases t <;> exact ⟨_, rfl⟩

theorem reviveCard_serializeCard (c : KanbanCard)
    (h1 : ∃ m, c.createdAt = TimeVal.date m) (h2 : ∃ m, c.updatedAt = TimeVal.date m) :
    reviveCard (serializeCard c) = c := by
  obtain ⟨m1, h1⟩ := h1
  obtain ⟨m2, h2⟩ := h2
  cases c
  simp_all [reviveCard, serializeCard, jsonTime, reviveTime]

/-- C9: `deleteCard` on an id absent from the active namespace — in
particular on an already soft-deleted card — never throws: it returns the
non-existent-card failure result and leaves the whole store (active
namespace, deleted namespace and column index) unchanged. -/
theorem C9_delete_nonexistent (s : Memento) (cardId : String) (now : Nat)
    (h : alGet s (.card cardId) = none) :
    deleteCard s cardId now
      = (s, Except.error ("Cannot delete non-existent card: " ++ cardId)) := by
  unfold deleteCard
  rw [h]

/-- Witness for C9 at a concrete store in which card `c1` has already been
soft-deleted: the second delete fails and changes nothing. -/
theorem C9_delete_nonexistent_witness :
    deleteCard (applyOps initMemento
        [CardOp.create "c1" 1 "task" none "todo" [] none, CardOp.delete "c1" 2]) "c1" 3
      = (applyOps initMemento
          [CardOp.create "c1" 1 "task" none "todo" [] none, CardOp.delete "c1" 2],
         Except.error ("Cannot delete non-existent card: " ++ "c1")) :=
  C9_delete_nonexistent _ "c1" 3 (by decide)

/-- C10: when the card exists, `updateCard` returns (and persists) a card
that keeps the stored card's `id` and `createdAt` — even if the updates
object tries to overwrite them — sets `updatedAt` to the update time, and
keeps every field the updates object does not name. -/
theorem C10_update_frame (s : Memento) (hwf : StoreWF s) (cardId : String)
    (u : CardUpdates) (now : Nat) (cur : KanbanCard)
    (hg : getCard s cardId = some cur) :
    (updateCard s cardId u now).2 = Except.ok (applyUpdates cur u now)
    ∧ (applyUpdates cur u now).id = cur.id
    ∧ (applyUpdates cur u now).createdAt = cur.createdAt
    ∧ (applyUpdates cur u now).updatedAt = TimeVal.date now
    ∧ (u.title = none → (applyUpdates cur u now).title = cur.title)
    ∧ (u.description = none → (applyUpdates cur u now).description = cur.description)
    ∧ (u.columnId = none → (applyUpdates cur u now).columnId = cur.columnId)
    ∧ (u.order = none → (applyUpdates cur u now).order = cur.order)
    ∧ (u.tags = none → (applyUpdates cur u now).tags = cur.tags)
    ∧ (u.priority = none → (applyUpdates cur u now).priority = cur.priority)
    ∧ getCard (updateCard s cardId u now).1 cardId = some (applyUpdates cur u now) := by
  have hout : (updateCard s cardId u now).2 = Except.ok (applyUpdates cur u now) := by
    unfold updateCard
    rw [hg]
  refine ⟨hout, rfl, rfl, rfl, ?_, ?_, ?_, ?_, ?_, ?_, ?_⟩
  · intro hn; simp [applyUpdates, hn]
  · intro hn; simp [applyUpdates, hn]
  · intro hn; simp [applyUpdates, hn]
  · intro hn; simp [applyUpdates, hn]
  · intro hn; simp [applyUpdates, hn]
  · intro hn; simp [applyUpdates, hn]
  · unfold getCard at hg
    rcases halg : alGet s (.card cardId) with _ | v
    · rw [halg] at hg; simp at hg
    · rw [halg] at hg
      cases v with
      | card c0 =>
        rw [Option.some.injEq] at hg
        have hcid : c0.id = cardId := by
          obtain ⟨c2, hc2, hid⟩ := hwf.cardIds cardId _ (mem_of_alGet s _ _ halg)
          have h5 : c0 = c2 := StoreVal.card.inj hc2
          subst h5
          exact hid
        set updated := applyUpdates cur u now with hupdated
        have hkey : updated.id = cardId := by
          rw [show updated.id = cur.id from rfl, ← hg]
          show (reviveCard c0).id = cardId
          rw [show (reviveCard c0).id = c0.id from rfl, hcid]
        have hsave : saveCard s updated
            = alSet s (.card cardId) (.card (serializeCard updated)) := by
          unfold saveCard
          rw [hkey]
        have hnative1 : ∃ m, updated.createdAt = TimeVal.date m := by
          rw [show updated.createdAt = cur.createdAt from rfl, ← hg]
          exact reviveTime_as_date c0.createdAt
        have hrt : reviveCard (serializeCard updated) = updated :=
          reviveCard_serializeCard updated hnative1 ⟨now, rfl⟩
        have hread : getCard (saveCard s updated) cardId = some updated := by
          unfold getCard
          rw [hsave, alGet_alSet_self]
          show some (reviveCard (serializeCard updated)) = some updated
          rw [hrt]
        have hgcur : getCard s cardId = some cur := by
          unfold getCard
          rw [halg]
          show some (reviveCard c0) = some cur
          rw [hg]
        unfold updateCard
        rw [hgcur]
        show getCard (if columnChanged u cur then updateCardIndex (saveCard s updated)
              else saveCard s updated) cardId = some updated
        by_cases hcc : columnChanged u cur
        · rw [if_pos hcc]
          unfold updateCardIndex
          unfold getCard
          rw [alGet_alSet_ne _ _ _ _ (fun h8 => by cases h8)]
          unfold getCard at hread
          exact hread
        · rw [if_neg hcc]
          exact hread
      | deletedCard d => simp at hg
      | colIndex m => simp at hg

end Cards

namespace Cards

/-- Witness for C10, at a store holding one created card and an updates
object that renames it while trying to overwrite `id` and `createdAt`. -/
theorem C10_update_frame_witness :
    (updateCard exC10Store "c1" exC10Updates 7).2
        = Except.ok (applyUpdates exC10Card exC10Updates 7)
    ∧ (applyUpdates exC10Card exC10Updates 7).id = exC10Card.id
    ∧ (applyUpdates exC10Card exC10Updates 7).createdAt = exC10Card.createdAt
    ∧ (applyUpdates exC10Card exC10Updates 7).updatedAt = TimeVal.date 7
    ∧ (exC10Updates.title = none →
        (applyUpdates exC10Card exC10Updates 7).title = exC10Card.title)
    ∧ (exC10Updates.description = none →
        (applyUpdates exC10Card exC10Updates 7).description = exC10Card.description)
    ∧ (exC10Updates.columnId = none →
        (applyUpdates exC10Card exC10Updates 7).columnId = exC10Card.columnId)
    ∧ (exC10Updates.order = none →
        (applyUpdates exC10Card exC10Updates 7).order = exC10Card.order)
    ∧ (exC10Updates.tags = none →
        (applyUpdates exC10Card exC10Updates 7).tags = exC10Card.tags)
    ∧ (exC10Updates.priority = none →
        (applyUpdates exC10Card exC10Updates 7).priority = exC10Card.priority)
    ∧ getCard (updateCard exC10Store "c1" exC10Updates 7).1 "c1"
        = some (applyUpdates exC10Card exC10Updates 7) :=
  C10_update_frame exC10Store
    (storeWF_applyOps _ _ storeWF_initMemento (by
      intro op hop
      simp only [List.mem_singleton] at hop
      subst hop
      trivial))
    "c1" exC10Updates 7 exC10Card (by decide)

end Cards

/-- C8 (amended): through `CardStorage`, saving a card with native `Date`
timestamps and reading it back yields the card field for field, the
millisecond timestamps intact.  Through the board-file path, the top-level
board fields round-trip with `createdAt`/`lastModified` revived to native
dates at millisecond precision, but the board's nested columns and cards come
back exactly as serialized: their timestamps remain ISO strings (carrying the
same millisecond values), not revived `Date` values. -/
theorem C8_roundtrip (s : Cards.Memento) (c : Cards.KanbanCard) (b : Boards.KanbanBoard)
    (hc1 : ∃ m, c.createdAt = TimeVal.date m) (hc2 : ∃ m, c.updatedAt = TimeVal.date m)
    (hb1 : ∃ m, b.createdAt = TimeVal.date m) (hb2 : ∃ m, b.lastModified = TimeVal.date m)
    (now : Nat) (ver : String) :
    Cards.getCard (Cards.saveCard s c) c.id = some c
    ∧ Boards.loadBoardData (Boards.mkBoardFileData b now ver)
        = some { Boards.serializeBoard b with
                   createdAt := b.createdAt, lastModified := b.lastModified } := by
  constructor
  · unfold Cards.getCard Cards.saveCard
    rw [AList.alGet_alSet_self]
    show some (Cards.reviveCard (Cards.serializeCard c)) = some c
    rw [Cards.reviveCard_serializeCard c hc1 hc2]
  · obtain ⟨m1, hb1⟩ := hb1
    obtain ⟨m2, hb2⟩ := hb2
    unfold Boards.loadBoardData Boards.mkBoardFileData Boards.isValidBoard
    simp [Boards.serializeBoard, hb1, hb2, jsonTime, reviveTime]

/-- Witness for C8 (amended), at a concrete card and the concrete one-card
board. -/
theorem C8_roundtrip_witness :
    Cards.getCard (Cards.saveCard [] Cards.exC8Card) Cards.exC8Card.id
        = some Cards.exC8Card
    ∧ Boards.loadBoardData (Boards.mkBoardFileData Boards.exBoard 9 "0.1.0")
        = some { Boards.serializeBoard Boards.exBoard with
                   createdAt := Boards.exBoard.createdAt,
                   lastModified := Boards.exBoard.lastModified } :=
  C8_roundtrip [] Cards.exC8Card Boards.exBoard ⟨1, rfl⟩ ⟨2, rfl⟩ ⟨1, rfl⟩ ⟨2, rfl⟩ 9 "0.1.0"

/-- C8, counterexample: the board save/load path does not revive nested card
timestamps.  Loading the file written for the one-card board `exBoard` yields
a board whose nested card `createdAt` is the ISO string for 5 ms, not the
original native `Date`, so `load(save(b))` is not field-for-field equal to
`b`. -/
theorem C8_counterexample :
    Boards.loadBoardData (Boards.mkBoardFileData Boards.exBoard 9 "0.1.0")
        ≠ some Boards.exBoard
    ∧ (Boards.loadBoardData (Boards.mkBoardFileData Boards.exBoard 9 "0.1.0")).map
        (fun b => b.columns.map fun col => col.cards.map Boards.KanbanCard.createdAt)
        = some [[TimeVal.iso 5]]
    ∧ Boards.exBoard.columns.map (fun col => col.cards.map Boards.KanbanCard.createdAt)
        = [[TimeVal.date 5]] := by
  decide

namespace Boards

/-- C5, counterexample: `FileStorage.saveBoard` writes the primary board file
before the backup copy, not after it; and a backup-write failure is caught by
the same handler as any other error, so the save reports failure to the
caller even though the primary write already happened. -/
theorem C5_counterexample :
    (fsSaveBoard
        { workspaceAvailable := true, extensionStorageAvailable := true,
          primaryWriteError := none, backupWriteError := none }
        exBoard 9 "0.1.0").writes
      = [WriteEvent.primary (mkBoardFileData exBoard 9 "0.1.0"),
         WriteEvent.backup (mkBoardFileData exBoard 9 "0.1.0")]
    ∧ fsSaveBoard
        { workspaceAvailable := true, extensionStorageAvailable := true,
          primaryWriteError := none, backupWriteError := some "disk full" }
        exBoard 9 "0.1.0"
      = { success := false, error := some "disk full",
          writes := [WriteEvent.primary (mkBoardFileData exBoard 9 "0.1.0")] } := by
  decide

/-- C5 (amended): every durable board save writes the primary file first and
the backup copy second (only when extension storage is available); a backup
failure leaves the already-written primary in place but makes the save report
failure; a primary failure prevents every write. -/
theorem C5_primary_then_backup (env : FsEnv) (b : KanbanBoard) (now : Nat) (ver : String)
    (hw : env.workspaceAvailable = true) :
    (env.primaryWriteError = none → env.extensionStorageAvailable = true →
        env.backupWriteError = none →
        fsSaveBoard env b now ver
          = { success := true, error := none,
              writes := [WriteEvent.primary (mkBoardFileData b now ver),
                         WriteEvent.backup (mkBoardFileData b now ver)] })
    ∧ (env.primaryWriteError = none → env.extensionStorageAvailable = false →
        fsSaveBoard env b now ver
          = { success := true, error := none,
              writes := [WriteEvent.primary (mkBoardFileData b now ver)] })
    ∧ (∀ msg, env.primaryWriteError = none → env.extensionStorageAvailable = true →
        env.backupWriteError = some msg →
        fsSaveBoard env b now ver
          = { success := false, error := some msg,
              writes := [WriteEvent.primary (mkBoardFileData b now ver)] })
    ∧ (∀ msg, env.primaryWriteError = some msg →
        fsSaveBoard env b now ver
          = { success := false, error := some msg, writes := [] }) := by
  refine ⟨?_, ?_, ?_, ?_⟩
  · intro h1 h2 h3
    simp [fsSaveBoard, hw, h1, h2, h3]
  · intro h1 h2
    simp [fsSaveBoard, hw, h1, h2]
  · intro msg h1 h2 h3
    simp [fsSaveBoard, hw, h1, h2, h3]
  · intro msg h1
    simp [fsSaveBoard, hw, h1]

/-- Witness for C5 (amended), at an environment whose backup write fails. -/
theorem C5_primary_then_backup_witness :
    (({ workspaceAvailable := true, extensionStorageAvailable := true,
        primaryWriteError := none, backupWriteError := some "disk full" } : FsEnv).primaryWriteError
          = none →
      ({ workspaceAvailable := true, extensionStorageAvailable := true,
         primaryWriteError := none, backupWriteError := some "disk full" } : FsEnv).extensionStorageAvailable
          = true →
      ({ workspaceAvailable := true, extensionStorageAvailable := true,
         primaryWriteError := none, backupWriteError := some "disk full" } : FsEnv).backupWriteError
          = none →
      fsSaveBoard
          { workspaceAvailable := true, extensionStorageAvailable := true,
            primaryWriteError := none, backupWriteError := some "disk full" }
          exBoard 9 "0.1.0"
        = { success := true, error := none,
            writes := [WriteEvent.primary (mkBoardFileData exBoard 9 "0.1.0"),
                       WriteEvent.backup (mkBoardFileData exBoard 9 "0.1.0")] })
    ∧ (({ workspaceAvailable := true, extensionStorageAvailable := true,
          primaryWriteError := none, backupWriteError := some "disk full" } : FsEnv).primaryWriteError
            = none →
        ({ workspaceAvailable := true, extensionStorageAvailable := true,
           primaryWriteError := none, backupWriteError := some "disk full" } : FsEnv).extensionStorageAvailable
            = false →
        fsSaveBoard
            { workspaceAvailable := true, extensionStorageAvailable := true,
              primaryWriteError := none, backupWriteError := some "disk full" }
            exBoard 9 "0.1.0"
          = { success := true, error := none,
              writes := [WriteEvent.primary (mkBoardFileData exBoard 9 "0.1.0")] })
    ∧ (∀ msg,
        ({ workspaceAvailable := true, extensionStorageAvailable := true,
           primaryWriteError := none, backupWriteError := some "disk full" } : FsEnv).primaryWriteError
            = none →
        ({ workspaceAvailable := true, extensionStorageAvailable := true,
           primaryWriteError := none, backupWriteError := some "disk full" } : FsEnv).extensionStorageAvailable
            = true →
        ({ workspaceAvailable := true, extensionStorageAvailable := true,
           primaryWriteError := none, backupWriteError := some "disk full" } : FsEnv).backupWriteError
            = some msg →
        fsSaveBoard
            { workspaceAvailable := true, extensionStorageAvailable := true,
              primaryWriteError := none, backupWriteError := some "disk full" }
            exBoard 9 "0.1.0"
          = { success := false, error := some msg,
              writes := [WriteEvent.primary (mkBoardFileData exBoard 9 "0.1.0")] })
    ∧ (∀ msg,
        ({ workspaceAvailable := true, extensionStorageAvailable := true,
           primaryWriteError := none, backupWriteError := some "disk full" } : FsEnv).primaryWriteError
            = some msg →
        fsSaveBoard
            { workspaceAvailable := true, extensionStorageAvailable := true,
              primaryWriteError := none, backupWriteError := some "disk full" }
            exBoard 9 "0.1.0"
          = { success := false, error := some msg, writes := [] }) :=
  C5_primary_then_backup
    { workspaceAvailable := true, extensionStorageAvailable := true,
      primaryWriteError := none, backupWriteError := some "disk full" }
    exBoard 9 "0.1.0" rfl

end Boards

namespace Manager

theorem bmSaveBoard_frame (s : BMState) (b : Boards.KanbanBoard) (t : Nat)
    (ha : s.autoSave = true) :
    (bmSaveBoard s b t).writeLog = s.writeLog
    ∧ (bmSaveBoard s b t).disk = s.disk
    ∧ (bmSaveBoard s b t).autoSave = true
    ∧ (bmSaveBoard s b t).autoSaveTimer = some { b with lastModified := TimeVal.date t } := by
  simp [bmSaveBoard, ha]

theorem runSaves_frame (s : BMState) (calls : List (Boards.KanbanBoard × Nat))
    (ha : s.autoSave = true) :
    (runSaves s calls).writeLog = s.writeLog
    ∧ (runSaves s calls).disk = s.disk
    ∧ (runSaves s calls).autoSave = true := by
  induction calls generalizing s with
  | nil => exact ⟨rfl, rfl, ha⟩
  | cons c rest ih =>
    have h1 := bmSaveBoard_frame s c.1 c.2 ha
    have h2 := ih (bmSaveBoard s c.1 c.2) h1.2.2.1
    refine ⟨?_, ?_, h2.2.2⟩
    · rw [show runSaves s (c :: rest) = runSaves (bmSaveBoard s c.1 c.2) rest from rfl,
          h2.1, h1.1]
    · rw [show runSaves s (c :: rest) = runSaves (bmSaveBoard s c.1 c.2) rest from rfl,
          h2.2.1, h1.2.1]

/-- C1, counterexample: the debounce timer is one shared field, so scheduling
a debounced save for `board2` cancels `board1`'s pending save.  After
`saveBoard board1; saveBoard board2` within one window, the pending timer
holds only `board2`, and once it fires the write log holds exactly one
durable write — `board2`'s; `board1`'s pending write never occurs. -/
theorem C1_counterexample :
    (bmSaveBoard (bmSaveBoard exBM0 Boards.exBoard 1) Boards.exBoardB 2).autoSaveTimer
        = some { Boards.exBoardB with lastModified := TimeVal.date 2 }
    ∧ (bmTimerFire (bmSaveBoard (bmSaveBoard exBM0 Boards.exBoard 1) Boards.exBoardB 2) 3).writeLog.map
          Prod.fst = ["board2"]
    ∧ ∀ e ∈ (bmTimerFire (bmSaveBoard (bmSaveBoard exBM0 Boards.exBoard 1)
          Boards.exBoardB 2) 3).writeLog, e.1 ≠ "board1" := by
  decide

/-- C1 (amended): the auto-save debounce timer is shared across all boards.
With auto-save on, scheduling a save for board B replaces whatever debounced
save was pending — including one for a different board A — without writing
anything durably, and the next timer expiry writes only B's state; A's
cancelled pending write does not occur. -/
theorem C1_shared_timer (s : BMState) (a b2 : Boards.KanbanBoard) (ta tb tf : Nat)
    (ha : s.autoSave = true) :
    (bmSaveBoard s a ta).autoSaveTimer = some { a with lastModified := TimeVal.date ta }
    ∧ (bmSaveBoard (bmSaveBoard s a ta) b2 tb).autoSaveTimer
        = some { b2 with lastModified := TimeVal.date tb }
    ∧ (bmSaveBoard (bmSaveBoard s a ta) b2 tb).writeLog = s.writeLog
    ∧ (bmTimerFire (bmSaveBoard (bmSaveBoard s a ta) b2 tb) tf).writeLog
        = s.writeLog ++ [(b2.id, { b2 with lastModified := TimeVal.date tb })] := by
  have h1 := bmSaveBoard_frame s a ta ha
  have h2 := bmSaveBoard_frame (bmSaveBoard s a ta) b2 tb h1.2.2.1
  refine ⟨h1.2.2.2, h2.2.2.2, by rw [h2.1, h1.1], ?_⟩
  rw [bmTimerFire, h2.2.2.2]
  simp [bmWriteBoard, h2.1, h1.1]

/-- Witness for C1 (amended), at the fresh manager and the two concrete
boards. -/
theorem C1_shared_timer_witness :
    (bmSaveBoard exBM0 Boards.exBoard 1).autoSaveTimer
        = some { Boards.exBoard with lastModified := TimeVal.date 1 }
    ∧ (bmSaveBoard (bmSaveBoard exBM0 Boards.exBoard 1) Boards.exBoardB 2).autoSaveTimer
        = some { Boards.exBoardB with lastModified := TimeVal.date 2 }
    ∧ (bmSaveBoard (bmSaveBoard exBM0 Boards.exBoard 1) Boards.exBoardB 2).writeLog
        = exBM0.writeLog
    ∧ (bmTimerFire (bmSaveBoard (bmSaveBoard exBM0 Boards.exBoard 1) Boards.exBoardB 2) 3).writeLog
        = exBM0.writeLog
            ++ [(Boards.exBoardB.id, { Boards.exBoardB with lastModified := TimeVal.date 2 })] :=
  C1_shared_timer exBM0 Boards.exBoard Boards.exBoardB 1 2 3 rfl

/-- C6: with auto-save on, N ≥ 1 `saveBoard` calls for the same board id
inside one debounce window perform no durable write during the burst and
exactly one durable write when the timer fires, whose content is the board
state passed to the last call (stamped with that call's clock reading); no
intermediate state is ever persisted. -/
theorem C6_debounce_coalescing (s : BMState) (i : String)
    (calls : List (Boards.KanbanBoard × Nat)) (b : Boards.KanbanBoard) (t tf : Nat)
    (ha : s.autoSave = true) (hid : ∀ c ∈ calls ++ [(b, t)], c.1.id = i) :
    (runSaves s (calls ++ [(b, t)])).writeLog = s.writeLog
    ∧ (runSaves s (calls ++ [(b, t)])).disk = s.disk
    ∧ (bmTimerFire (runSaves s (calls ++ [(b, t)])) tf).writeLog
        = s.writeLog ++ [(i, { b with lastModified := TimeVal.date t })] := by
  have hframe := runSaves_frame s (calls ++ [(b, t)]) ha
  refine ⟨hframe.1, hframe.2.1, ?_⟩
  have hsplit : runSaves s (calls ++ [(b, t)]) = bmSaveBoard (runSaves s calls) b t := by
    unfold runSaves
    rw [List.foldl_append]
    rfl
  have hmid := runSaves_frame s calls ha
  have hlast := bmSaveBoard_frame (runSaves s calls) b t hmid.2.2
  have hbid : b.id = i := hid (b, t) (by simp)
  rw [hsplit, bmTimerFire, hlast.2.2.2]
  simp [bmWriteBoard, hlast.1, hmid.1, hbid]

/-- Witness for C6, at a burst of three renames of the same board inside one
window. -/
theorem C6_debounce_coalescing_witness :
    (runSaves exBM0 ([({ Boards.exBoard with name := "n1" }, 1),
        ({ Boards.exBoard with name := "n2" }, 2)]
          ++ [({ Boards.exBoard with name := "n3" }, 3)])).writeLog = exBM0.writeLog
    ∧ (runSaves exBM0 ([({ Boards.exBoard with name := "n1" }, 1),
        ({ Boards.exBoard with name := "n2" }, 2)]
          ++ [({ Boards.exBoard with name := "n3" }, 3)])).disk = exBM0.disk
    ∧ (bmTimerFire (runSaves exBM0 ([({ Boards.exBoard with name := "n1" }, 1),
        ({ Boards.exBoard with name := "n2" }, 2)]
          ++ [({ Boards.exBoard with name := "n3" }, 3)])) 9).writeLog
        = exBM0.writeLog
            ++ [("board1", { { Boards.exBoard with name := "n3" } with
                  lastModified := TimeVal.date 3 })] :=
  C6_debounce_coalescing exBM0 "board1"
    [({ Boards.exBoard with name := "n1" }, 1), ({ Boards.exBoard with name := "n2" }, 2)]
    { Boards.exBoard with name := "n3" } 3 9 rfl (by decide)

end Manager

namespace Manager

open AList

/-- C3, counterexample: an external file-change event for `board1`, observed
while a debounced save for `board1` is pending, still drops the cached entry
and replaces it with the (stale) content loaded from disk — there is no
pending-write guard, no deferral, and no timestamp reconciliation. -/
theorem C3_counterexample :
    exC3State.autoSaveTimer = some exC3Fresh
    ∧ alGet exC3State.loadedBoards "board1" = some exC3Fresh
    ∧ alGet (bmOnDidChange exC3State "board1").loadedBoards "board1"
        = Boards.loadBoardData (Boards.mkBoardFileData exC3Old 50 "0.1.0")
    ∧ alGet (bmOnDidChange exC3State "board1").loadedBoards "board1" ≠ some exC3Fresh := by
  decide

/-- C3 (amended): the `onDidChange` watcher callback always drops a cached
board and reloads it from its file, whether or not a debounced save is
pending; the pending timer, write log and disk are untouched, and an
uncached board id leaves the state unchanged. -/
theorem C3_always_reload (s : BMState) (boardId : String)
    (hnd : (s.loadedBoards.map Prod.fst).Nodup) :
    ((alGet s.loadedBoards boardId).isSome →
        alGet (bmOnDidChange s boardId).loadedBoards boardId
          = (alGet s.disk boardId).bind Boards.loadBoardData)
    ∧ (bmOnDidChange s boardId).autoSaveTimer = s.autoSaveTimer
    ∧ (bmOnDidChange s boardId).writeLog = s.writeLog
    ∧ (bmOnDidChange s boardId).disk = s.disk
    ∧ (alGet s.loadedBoards boardId = none → bmOnDidChange s boardId = s) := by
  have hframe : (bmOnDidChange s boardId).autoSaveTimer = s.autoSaveTimer
      ∧ (bmOnDidChange s boardId).writeLog = s.writeLog
      ∧ (bmOnDidChange s boardId).disk = s.disk := by
    unfold bmOnDidChange
    rcases halG : alGet s.loadedBoards boardId with _ | cached
    · simp
    · simp only [halG]
      rcases hd : alGet s.disk boardId with _ | d
      · simp [hd]
      · rcases hl : Boards.loadBoardData d with _ | loaded <;> simp [hd, hl]
  refine ⟨?_, hframe.1, hframe.2.1, hframe.2.2, ?_⟩
  · intro hs
    rcases hc : alGet s.loadedBoards boardId with _ | cached
    · rw [hc] at hs; simp at hs
    · unfold bmOnDidChange
      simp only [hc]
      rcases hd : alGet s.disk boardId with _ | d
      · simp [hd, alGet_alErase_self s.loadedBoards boardId hnd]
      · rcases hl : Boards.loadBoardData d with _ | loaded
        · simp [hd, hl, alGet_alErase_self s.loadedBoards boardId hnd]
        · simp [hd, hl, alGet_alSet_self]
  · intro hc
    unfold bmOnDidChange
    simp [hc]

/-- Witness for C3 (amended), at the concrete state with a pending save and a
stale disk copy. -/
theorem C3_always_reload_witness :
    ((alGet exC3State.loadedBoards "board1").isSome →
        alGet (bmOnDidChange exC3State "board1").loadedBoards "board1"
          = (alGet exC3State.disk "board1").bind Boards.loadBoardData)
    ∧ (bmOnDidChange exC3State "board1").autoSaveTimer = exC3State.autoSaveTimer
    ∧ (bmOnDidChange exC3State "board1").writeLog = exC3State.writeLog
    ∧ (bmOnDidChange exC3State "board1").disk = exC3State.disk
    ∧ (alGet exC3State.loadedBoards "board1" = none →
        bmOnDidChange exC3State "board1" = exC3State) :=
  C3_always_reload exC3State "board1" (by decide)

end Manager

namespace Router

theorem erase_append_singleton {α : Type} [DecidableEq α] (l : List α) (a : α)
    (h : a ∉ l) : (l ++ [a]).erase a = l := by
  induction l with
  | nil => simp
  | cons b tl ih =>
    have hba : ¬b = a := fun heq => h (heq ▸ List.mem_cons_self _ _)
    have htl : a ∉ tl := fun hm => h (List.mem_cons_of_mem _ hm)
    simp [List.erase_cons, hba, ih htl]

/-- C4: when a message with an in-flight requestId is dispatched before the
first dispatch completes, the handler runs exactly once (for the first
message), the second dispatch is answered with a failure naming the duplicate
requestId without touching the router state or invoking any handler, and the
requestId leaves the in-flight set when the first dispatch completes, whether
its handler returned or threw. -/
theorem C4_duplicate_rejected (s : RouterState) (m m2 : WebviewMessage)
    (e1 e2 e3 : Nat) (o : HandlerOutcome)
    (hv : validateMessage m = none) (hh : m.command ∈ s.handlers)
    (hp : m.requestId ∉ s.pending)
    (hv2 : validateMessage m2 = none) (hh2 : m2.command ∈ s.handlers)
    (hid : m2.requestId = m.requestId) :
    (dispatchStart s m e1).2 = DispatchStart.launched
    ∧ (dispatchStart s m e1).1.callLog = s.callLog ++ [(m.command, m.requestId)]
    ∧ (dispatchStart (dispatchStart s m e1).1 m2 e2).2
        = DispatchStart.earlyError
            { requestId := m2.requestId, success := false,
              error := some ("Duplicate request ID: " ++ m2.requestId),
              processingTime := e2 }
    ∧ (dispatchStart (dispatchStart s m e1).1 m2 e2).1 = (dispatchStart s m e1).1
    ∧ (dispatchFinish (dispatchStart s m e1).1 m o e3).1.callLog
        = s.callLog ++ [(m.command, m.requestId)]
    ∧ m.requestId ∉ (dispatchFinish (dispatchStart s m e1).1 m o e3).1.pending := by
  have hstep1 : dispatchStart s m e1
      = ({ s with
            pending := s.pending ++ [m.requestId],
            callLog := s.callLog ++ [(m.command, m.requestId)] },
         DispatchStart.launched) := by
    unfold dispatchStart
    rw [hv]
    simp [hh, hp]
  have hmem : m2.requestId ∈ s.pending ++ [m.requestId] := by
    rw [hid]
    exact List.mem_append_right _ (by simp)
  have hstep2 : dispatchStart
        ({ s with
            pending := s.pending ++ [m.requestId],
            callLog := s.callLog ++ [(m.command, m.requestId)] }) m2 e2
      = ({ s with
            pending := s.pending ++ [m.requestId],
            callLog := s.callLog ++ [(m.command, m.requestId)] },
         DispatchStart.earlyError
           (mkErrorResponse m2.requestId ("Duplicate request ID: " ++ m2.requestId) e2)) := by
    unfold dispatchStart
    rw [hv2]
    simp [hh2, hmem]
  have herase : (s.pending ++ [m.requestId]).erase m.requestId = s.pending :=
    erase_append_singleton s.pending m.requestId hp
  refine ⟨by rw [hstep1], by rw [hstep1], ?_, ?_, ?_, ?_⟩
  · rw [hstep1]
    simp only [hstep2]
    rfl
  · rw [hstep1]
    simp only [hstep2]
  · rw [hstep1]
    cases o <;> simp [dispatchFinish]
  · rw [hstep1]
    cases o <;> simp [dispatchFinish, herase, hp]

/-- Witness for C4: two `ping` messages sharing requestId `r1` on the fresh
router, the first one's handler returning successfully. -/
theorem C4_duplicate_rejected_witness :
    (dispatchStart initialRouter
        { command := "ping", requestId := "r1", timestamp := 5, source := "webview" } 1).2
        = DispatchStart.launched
    ∧ (dispatchStart initialRouter
        { command := "ping", requestId := "r1", timestamp := 5, source := "webview" } 1).1.callLog
        = initialRouter.callLog ++ [("ping", "r1")]
    ∧ (dispatchStart (dispatchStart initialRouter
        { command := "ping", requestId := "r1", timestamp := 5, source := "webview" } 1).1
        { command := "ping", requestId := "r1", timestamp := 6, source := "webview" } 2).2
        = DispatchStart.earlyError
            { requestId := "r1", success := false,
              error := some ("Duplicate request ID: " ++ "r1"), processingTime := 2 }
    ∧ (dispatchStart (dispatchStart initialRouter
        { command := "ping", requestId := "r1", timestamp := 5, source := "webview" } 1).1
        { command := "ping", requestId := "r1", timestamp := 6, source := "webview" } 2).1
        = (dispatchStart initialRouter
            { command := "ping", requestId := "r1", timestamp := 5, source := "webview" } 1).1
    ∧ (dispatchFinish (dispatchStart initialRouter
        { command := "ping", requestId := "r1", timestamp := 5, source := "webview" } 1).1
        { command := "ping", requestId := "r1", timestamp := 5, source := "webview" }
        (HandlerOutcome.ok true none) 3).1.callLog
        = initialRouter.callLog ++ [("ping", "r1")]
    ∧ "r1" ∉ (dispatchFinish (dispatchStart initialRouter
        { command := "ping", requestId := "r1", timestamp := 5, source := "webview" } 1).1
        { command := "ping", requestId := "r1", timestamp := 5, source := "webview" }
        (HandlerOutcome.ok true none) 3).1.pending :=
  C4_duplicate_rejected initialRouter
    { command := "ping", requestId := "r1", timestamp := 5, source := "webview" }
    { command := "ping", requestId := "r1", timestamp := 6, source := "webview" }
    1 2 3 (HandlerOutcome.ok true none)
    (by decide) (by decide) (by decide) (by decide) (by decide) rfl

end Router

namespace Router

/-- C7, counterexample: a dispatch rejected for malformed structure (empty
command) returns before `updatePerformanceMetrics` is ever called, so
`totalMessages` stays at 0 instead of increasing by one — the claim's "after
every call ... including dispatches rejected for malformed message structure"
fails; the same early return skips the metrics for no-handler and duplicate
rejections. -/
theorem C7_counterexample :
    (dispatchStart initialRouter
        { command := "", requestId := "r1", timestamp := 5, source := "webview" } 2).2
      = DispatchStart.earlyError
          { requestId := "r1", success := false,
            error := some "Invalid message format: Command must be a non-empty string",
            processingTime := 2 }
    ∧ (dispatchStart initialRouter
        { command := "", requestId := "r1", timestamp := 5, source := "webview" } 2).1
      = initialRouter
    ∧ (dispatchStart initialRouter
        { command := "", requestId := "r1", timestamp := 5, source := "webview" } 2).1.metrics.totalMessages
      ≠ initialRouter.metrics.totalMessages + 1 := by
  refine ⟨rfl, rfl, by decide⟩

/-- C7 (amended): the metrics are updated only by dispatches that actually
invoke a handler.  A dispatch rejected early (malformed message, no
registered handler, or duplicate requestId) leaves the router state — and in
particular `totalMessages`, `errorCount` and `averageProcessingTime` —
unchanged.  When an invoked handler completes, `totalMessages` grows by one,
`errorCount` grows by one exactly when the handler threw (a handler response
with `success:false` does not count), and the observed latency is folded into
`averageProcessingTime` as an exponential moving average with
`alpha = 0.1`, the first sample being taken as-is. -/
theorem C7_metrics_on_handler_only (s : RouterState) (m : WebviewMessage)
    (e e2 : Nat) (o : HandlerOutcome) (r : Response)
    (h : (dispatchStart s m e).2 = DispatchStart.earlyError r) :
    (dispatchStart s m e).1 = s
    ∧ (dispatchFinish s m o e2).1.metrics.totalMessages = s.metrics.totalMessages + 1
    ∧ (dispatchFinish s m o e2).1.metrics.errorCount
        = s.metrics.errorCount + (match o with | .throws _ => 1 | _ => 0)
    ∧ (dispatchFinish s m o e2).1.metrics.averageProcessingTime
        = (if s.metrics.averageProcessingTime = 0 then (e2 : ℚ)
           else (1 / 10 : ℚ) * e2 + (9 / 10 : ℚ) * s.metrics.averageProcessingTime) := by
  have hspec : ∀ (mt : Metrics) (p : Nat) (b : Bool),
      (updatePerformanceMetrics mt p b).totalMessages = mt.totalMessages + 1
      ∧ (updatePerformanceMetrics mt p b).errorCount
          = mt.errorCount + (if b then 0 else 1)
      ∧ (updatePerformanceMetrics mt p b).averageProcessingTime
          = (if mt.averageProcessingTime = 0 then (p : ℚ)
             else (1 / 10 : ℚ) * p + (9 / 10 : ℚ) * mt.averageProcessingTime) := by
    intro mt p b
    obtain ⟨t, a, ec⟩ := mt
    cases b <;> by_cases hz : a = 0 <;>
      simp [updatePerformanceMetrics, hz] <;> norm_num
  refine ⟨?_, ?_, ?_, ?_⟩
  · unfold dispatchStart at h ⊢
    rcases hv : validateMessage m with _ | err
    · by_cases hh : m.command ∈ s.handlers
      · by_cases hp : m.requestId ∈ s.pending
        · simp [hh, hp]
        · rw [hv] at h
          simp [hh, hp] at h
      · simp [hh]
    · rfl
  · cases o with
    | ok succ err => simpa [dispatchFinish] using (hspec s.metrics e2 true).1
    | throws msg => simpa [dispatchFinish] using (hspec s.metrics e2 false).1
  · cases o with
    | ok succ err => simpa [dispatchFinish] using (hspec s.metrics e2 true).2.1
    | throws msg => simpa [dispatchFinish] using (hspec s.metrics e2 false).2.1
  · cases o with
    | ok succ err => simpa [dispatchFinish] using (hspec s.metrics e2 true).2.2
    | throws msg => simpa [dispatchFinish] using (hspec s.metrics e2 false).2.2

end Router

namespace Router

/-- Witness for C7 (amended), at the fresh router, a malformed (empty
command) message, and a handler that returned successfully after 4 ms. -/
theorem C7_metrics_on_handler_only_witness :
    (dispatchStart initialRouter
        { command := "", requestId := "r1", timestamp := 5, source := "webview" } 2).1
      = initialRouter
    ∧ (dispatchFinish initialRouter
        { command := "", requestId := "r1", timestamp := 5, source := "webview" }
        (HandlerOutcome.ok true none) 4).1.metrics.totalMessages
      = initialRouter.metrics.totalMessages + 1
    ∧ (dispatchFinish initialRouter
        { command := "", requestId := "r1", timestamp := 5, source := "webview" }
        (HandlerOutcome.ok true none) 4).1.metrics.errorCount
      = initialRouter.metrics.errorCount
          + (match HandlerOutcome.ok true none with | .throws _ => 1 | _ => 0)
    ∧ (dispatchFinish initialRouter
        { command := "", requestId := "r1", timestamp := 5, source := "webview" }
        (HandlerOutcome.ok true none) 4).1.metrics.averageProcessingTime
      = (if initialRouter.metrics.averageProcessingTime = 0 then (4 : ℚ)
         else (1 / 10 : ℚ) * 4
              + (9 / 10 : ℚ) * initialRouter.metrics.averageProcessingTime) :=
  C7_metrics_on_handler_only initialRouter
    { command := "", requestId := "r1", timestamp := 5, source := "webview" }
    2 4 (HandlerOutcome.ok true none)
    { requestId := "r1", success := false,
      error := some "Invalid message format: Command must be a non-empty string",
      processingTime := 2 }
    rfl

end Router
